import Mathlib

/-!
Shallow embedding of the Gym Program Tracker session-store logic.

The repository contains two revisions of the same single-component app.  The
month-calendar component (src/unnamed/part_000) is the revision whose
saveSession implements the full upsert contract of the specification
(match on date and day key, then on date alone, then append); the older
component (src/App.jsx) shares every other helper verbatim but omits the
date-only fallback in its upsert.  The definitions below are translated from
src/unnamed/part_000; the older upsert is kept alongside for reference.

Dates, ids and day keys are strings, as in the source.  The createdAt field
holds an ISO timestamp string in the source; it is modelled as a natural
tick count, since lexicographic order on ISO timestamps coincides with time
order.  JavaScript numbers are modelled as rationals; NaN never occurs as a
stored value (clampNumber filters it out and JSON cannot encode it), so the
stored-value type has no NaN constructor, while the Number() coercion is
modelled with an Option whose none stands for NaN.
-/

/-- Stored value of a recorded numeric field inside a session: the
empty-string sentinel, JSON null, JS undefined (also standing for a missing
field), or a number. -/
inductive Val where
  | vempty
  | vnull
  | vundefined
  | vnum (q : ℚ)
deriving DecidableEq

/-- Raw value of a form field before normalization: text typed by the user,
a number (seeded defaults start out numeric), null, or undefined. -/
inductive RawVal where
  | rstr (s : String)
  | rnum (q : ℚ)
  | rnull
  | rundefined
deriving DecidableEq

/-- Nullish coalescing `v ?? ""` as applied to stored field values: null and
undefined collapse to the empty string; every other value passes through. -/
def jsCoalesce (v : Val) : Val :=
  match v with
  | .vnull => .vempty
  | .vundefined => .vempty
  | v => v

/-- First-match lookup in an association list, modelling JS object property
access on objects built by the app (keys are unique in practice). -/
def jsGet {β : Type} (fields : List (String × β)) (k : String) : Option β :=
  match fields with
  | [] => none
  | (k0, v) :: rest => if k0 = k then some v else jsGet rest k

/-- Models the JS builtin Number coercion on raw field values.  The string
case is abstracted by the numParse argument (none stands for NaN), so every
theorem below holds for any behaviour of Number on nonempty strings.
Number(null) is 0 and Number(undefined) is NaN. -/
def jsNumber (numParse : String → Option ℚ) : RawVal → Option ℚ
  | .rstr s => numParse s
  | .rnum q => some q
  | .rnull => some 0
  | .rundefined => none

/-- clampNumber from the source (part_000 lines 109-114): the empty string,
null and undefined map to the empty sentinel before Number is consulted; a
NaN reading maps to the empty sentinel; otherwise the numeric reading is
returned. -/
def clampNumber (numParse : String → Option ℚ) (value : RawVal) : Val :=
  if value = .rstr "" ∨ value = .rnull ∨ value = .rundefined then .vempty
  else
    match jsNumber numParse value with
    | none => .vempty
    | some n => .vnum n

/-- One exercise's recorded values within a session. -/
structure Entry where
  weight : Val
  reps : Val
  sets : Val
deriving DecidableEq

/-- Cardio record of a session. -/
structure Cardio where
  type : String
  minutes : Val
deriving DecidableEq

/-- A logged workout session, the payload shape built by saveSession. -/
structure Session where
  id : String
  date : String
  dayKey : String
  dayName : String
  cardio : Cardio
  notes : String
  entries : List (String × Entry)
  createdAt : Nat
deriving DecidableEq

/-- Static catalog entry for one exercise. -/
structure Exercise where
  id : String
  name : String
  unit : String
  start : Val
deriving DecidableEq

/-- Cardio spec of a program day. -/
structure CardioSpec where
  type : String
  minutesDefault : ℚ
deriving DecidableEq

/-- Static catalog entry for one program day. -/
structure WorkoutDay where
  title : String
  cardio : CardioSpec
  exercises : List Exercise
deriving DecidableEq

/-- Day 1 of the static program catalog (part_000 lines 33-44). -/
def day1 : WorkoutDay :=
  { title := "Day 1 - Shoulders (Heavy) + Push + Abs"
    cardio := { type := "Incline walk", minutesDefault := 15 }
    exercises :=
      [ { id := "shoulder_press", name := "Shoulder Press", unit := "kg", start := .vnum 35 }
      , { id := "lat_raise_machine", name := "Lateral Raise Machine", unit := "kg", start := .vnum 20 }
      , { id := "incline_db_press", name := "Incline DB Press", unit := "kg", start := .vnum 22.5 }
      , { id := "rear_delt_fly_cable", name := "Rear Delt Fly (cable)", unit := "kg", start := .vnum 15 }
      , { id := "triceps_pushdown", name := "Triceps Pushdown", unit := "kg", start := .vnum 40 }
      , { id := "ab_crunch_machine", name := "Ab Crunch Machine", unit := "kg", start := .vnum 40 } ] }

/-- Day 2 of the static program catalog (part_000 lines 45-55). -/
def day2 : WorkoutDay :=
  { title := "Day 2 - Light Lower + Stairs + Abs"
    cardio := { type := "Stair machine", minutesDefault := 20 }
    exercises :=
      [ { id := "goblet_squat", name := "Goblet Squat", unit := "kg", start := .vnull }
      , { id := "romanian_deadlift", name := "Romanian Deadlift", unit := "kg", start := .vnull }
      , { id := "walking_lunges", name := "Walking Lunges", unit := "kg", start := .vnull }
      , { id := "standing_calf_raise", name := "Standing Calf Raise", unit := "kg", start := .vnull }
      , { id := "ab_crunch_machine", name := "Ab Crunch Machine", unit := "kg", start := .vnull } ] }

/-- Day 3 of the static program catalog (part_000 lines 56-67). -/
def day3 : WorkoutDay :=
  { title := "Day 3 - Shoulders (Volume) + Pull + Abs"
    cardio := { type := "Incline walk", minutesDefault := 15 }
    exercises :=
      [ { id := "upright_cable_row", name := "Upright Cable Row (wide grip)", unit := "kg", start := .vnull }
      , { id := "lat_pulldown", name := "Lat Pulldown", unit := "kg", start := .vnull }
      , { id := "face_pull", name := "Face Pull", unit := "kg", start := .vnull }
      , { id := "cable_lateral_raise", name := "Cable Lateral Raise", unit := "kg", start := .vnull }
      , { id := "triceps_pushdown", name := "Triceps Pushdown", unit := "kg", start := .vnull }
      , { id := "ab_crunch_machine", name := "Ab Crunch Machine", unit := "kg", start := .vnull } ] }

/-- Day 4 of the static program catalog (part_000 lines 68-77). -/
def day4 : WorkoutDay :=
  { title := "Day 4 - Upper Accessories + Conditioning"
    cardio := { type := "Stairs or incline walk", minutesDefault := 15 }
    exercises :=
      [ { id := "arnold_press", name := "Arnold Press", unit := "kg", start := .vnull }
      , { id := "rear_delt_fly", name := "Rear Delt Fly", unit := "kg", start := .vnull }
      , { id := "biceps_curl", name := "Biceps Curl", unit := "kg", start := .vnull }
      , { id := "hammer_curl", name := "Hammer Curl", unit := "kg", start := .vnull } ] }

/-- PROGRAM.days lookup. -/
def PROGRAM_days (key : String) : Option WorkoutDay :=
  if key = "d1" then some day1
  else if key = "d2" then some day2
  else if key = "d3" then some day3
  else if key = "d4" then some day4
  else none

/-- JS Array.prototype.findIndex, with none standing for -1. -/
def jsFindIndex {α : Type} (p : α → Bool) : List α → Option Nat
  | [] => none
  | x :: xs => if p x then some 0 else (jsFindIndex p xs).map (· + 1)

/-- The setSessions updater inside saveSession (part_000 lines 376-393):
replace the first session matching both date and day key; else replace the
first session matching the date alone; else append the payload. -/
def saveSessionUpsert (prev : List Session) (payload : Session) : List Session :=
  match jsFindIndex (fun s => s.date == payload.date && s.dayKey == payload.dayKey) prev with
  | some idx => prev.set idx payload
  | none =>
    match jsFindIndex (fun s => s.date == payload.date) prev with
    | some idx => prev.set idx payload
    | none => prev ++ [payload]

/-- The setSessions updater of the older component (src/App.jsx lines
227-235).  It has no date-only fallback: a session with the same date but a
different day key is appended, not replaced.  Kept for reference; the
specification's upsert contract is saveSessionUpsert above. -/
def saveSessionUpsertLegacy (prev : List Session) (payload : Session) : List Session :=
  match jsFindIndex (fun s => s.date == payload.date && s.dayKey == payload.dayKey) prev with
  | some idx => prev.set idx payload
  | none => prev ++ [payload]

/-- Raw form entry, one exercise's three text inputs. -/
structure RawEntry where
  weight : RawVal
  reps : RawVal
  sets : RawVal
deriving DecidableEq

/-- Log-form state feeding saveSession. -/
structure FormState where
  date : String
  dayKey : String
  notes : String
  cardioMinutes : RawVal
  entries : List (String × RawEntry)
deriving DecidableEq

/-- Guarded normalization `x === "" ? "" : clampNumber(x)` used for every
numeric field of the saved payload. -/
def cleanField (numParse : String → Option ℚ) (v : RawVal) : Val :=
  if v = .rstr "" then .vempty else clampNumber numParse v

/-- Normalization of one raw entry inside saveSession (part_000 lines 355-359). -/
def cleanEntry (numParse : String → Option ℚ) (e : RawEntry) : Entry :=
  { weight := cleanField numParse e.weight
    reps := cleanField numParse e.reps
    sets := cleanField numParse e.sets }

/-- Payload construction inside saveSession (part_000 lines 349-374).  The
random id suffix and the wall clock are parameters of the model. -/
def buildSessionPayload (numParse : String → Option ℚ) (fs : FormState)
    (day : WorkoutDay) (newId : String) (now : Nat) : Session :=
  { id := newId
    date := fs.date
    dayKey := fs.dayKey
    dayName := day.title
    cardio := { type := day.cardio.type, minutes := cleanField numParse fs.cardioMinutes }
    notes := fs.notes.trim
    entries := day.exercises.map (fun ex =>
      (ex.id, cleanEntry numParse
        ((jsGet fs.entries ex.id).getD { weight := .rstr "", reps := .rstr "", sets := .rstr "" })))
    createdAt := now }

/-- Boolean test of the find callback in the day-change effect (part_000
line 298): the session has an entry for the exercise id whose weight is not
the empty string. -/
def entryNonEmptyWeight (s : Session) (exId : String) : Bool :=
  match jsGet s.entries exId with
  | some e => decide (e.weight ≠ Val.vempty)
  | none => false

/-- Field access last.entries[exId].weight.  The none branch is unreachable
whenever the session passed entryNonEmptyWeight. -/
def weightOf (s : Session) (exId : String) : Val :=
  match jsGet s.entries exId with
  | some e => e.weight
  | none => .vundefined

/-- Default weight seeded by the day-change effect (part_000 lines 293-305):
scan the copied, reversed store for a session with a non-empty weight for
the exercise; use that weight, else the exercise's static start value, with
`?? ""` collapsing a nullish result to the empty sentinel. -/
def seedDefaultWeight (sessions : List Session) (ex : Exercise) : Val :=
  match sessions.reverse.find? (fun s => entryNonEmptyWeight s ex.id) with
  | some last => jsCoalesce (weightOf last ex.id)
  | none => jsCoalesce ex.start

/-- The nextEntries object built by the day-change effect: every exercise of
the day gets its seeded weight, with reps and sets always empty. -/
def seedEntries (sessions : List Session) (day : WorkoutDay) : List (String × Entry) :=
  day.exercises.map (fun ex =>
    (ex.id, { weight := seedDefaultWeight sessions ex, reps := .vempty, sets := .vempty }))

/-- Recency relation on sessions: the left one was saved no earlier than the
right one. -/
def savedNoEarlier (a b : Session) : Prop := b.createdAt ≤ a.createdAt

instance : DecidableRel savedNoEarlier := fun a b => Nat.decLe b.createdAt a.createdAt

/-- Follows the wording of the specification for comparison with the source
definition above: seed by scanning the store most-recently-saved first
(descending createdAt), with the same fallbacks. -/
def seedDefaultWeightSpec (sessions : List Session) (ex : Exercise) : Val :=
  match (List.insertionSort savedNoEarlier sessions).find? (fun s => entryNonEmptyWeight s ex.id) with
  | some last => jsCoalesce (weightOf last ex.id)
  | none => jsCoalesce ex.start

/-- One point of the analytics series. -/
structure ChartPoint where
  date : String
  weight : Option ℚ
  dayKey : String
deriving DecidableEq

/-- Projection of a stored weight onto the chart: the empty sentinel becomes
null (none), a number passes through Number unchanged. -/
def toChartWeight (w : Val) : Option ℚ :=
  match w with
  | .vempty => none
  | .vnull => none
  | .vundefined => none
  | .vnum q => some q

/-- Order imposed by the chartData sort callback, which returns 1 exactly
when a.date is greater than b.date: a point precedes another whenever its
date is no greater. -/
def dateLe (a b : ChartPoint) : Prop := a.date ≤ b.date

instance : DecidableRel dateLe :=
  fun a b => inferInstanceAs (Decidable (a.date ≤ b.date))

instance : IsTotal ChartPoint dateLe := ⟨fun a b => le_total a.date b.date⟩

instance : IsTrans ChartPoint dateLe := ⟨fun _ _ _ h1 h2 => le_trans h1 h2⟩

/-- Point projection inside chartData (part_000 lines 439-444). -/
def chartPointOf (exId : String) (s : Session) : ChartPoint :=
  { date := s.date, weight := toChartWeight (weightOf s exId), dayKey := s.dayKey }

/-- chartData (part_000 lines 436-447): keep the sessions recording the
exercise, project each to a point, and sort ascending by date.  The JS sort
with the given callback is modelled as a sort with respect to dateLe. -/
def chartData (sessions : List Session) (exId : String) : List ChartPoint :=
  List.insertionSort dateLe
    ((sessions.filter (fun s => (jsGet s.entries exId).isSome)).map (chartPointOf exId))

/-- JS array indexing valid[i] for a possibly negative index, with none
standing for undefined. -/
def jsIndex {α : Type} (l : List α) (i : Int) : Option α :=
  if i < 0 then none else l[i.toNat]?

/-- Number(x.toFixed(2)) on an exact rational: rounding to 2 decimal places
with ties toward the larger value, as toFixed specifies (the floor of one
half more than a hundredfold, divided by a hundred). -/
def round2 (q : ℚ) : ℚ := Rat.divInt (Rat.floor (q * 100 + Rat.divInt 1 2)) 100

/-- Summary record computed by the lastTwo memo. -/
structure Summary where
  last : Option ChartPoint
  prev : Option ChartPoint
  delta : Option ℚ
  best : Option ℚ
deriving DecidableEq

/-- lastTwo (part_000 lines 449-456): filter the series down to the points
with a numeric weight, take the final two, their rounded difference, and the
maximum numeric weight. -/
def lastTwo (pts : List ChartPoint) : Summary :=
  let valid := pts.filter (fun p => p.weight.isSome)
  let last := jsIndex valid ((valid.length : Int) - 1)
  let prev := jsIndex valid ((valid.length : Int) - 2)
  { last := last
    prev := prev
    delta :=
      match last, prev with
      | some a, some b => some (round2 ((a.weight.getD 0) - (b.weight.getD 0)))
      | _, _ => none
    best :=
      match valid.map (fun p => p.weight.getD 0) with
      | [] => none
      | w :: ws => some (ws.foldl max w) }

/-- Parsed JSON value. -/
inductive Json where
  | null
  | bool (b : Bool)
  | num (q : ℚ)
  | str (s : String)
  | arr (elems : List Json)
  | obj (fields : List (String × Json))

/-- JS truthiness of a parsed JSON value (no NaN can come out of JSON.parse). -/
def jsTruthy (j : Json) : Bool :=
  match j with
  | .null => false
  | .bool b => b
  | .num q => decide (q ≠ 0)
  | .str s => decide (s ≠ "")
  | .arr _ => true
  | .obj _ => true

/-- Property access on a parsed JSON value: a field of an object, undefined
(none) otherwise. -/
def jsField (j : Json) (k : String) : Option Json :=
  match j with
  | .obj fields => jsGet fields k
  | _ => none

/-- Outcome of the import handler: an alert message leaving the store alone,
or a wholesale replacement. -/
inductive ImportResult where
  | failed (msg : String)
  | replaced (sessions : List Json)

/-- importDataFromFile after the file read (part_000 lines 413-426), at the
level of the JSON.parse result: none models a parse failure.  The imported
sessions are stored exactly as parsed, so they are kept as JSON values. -/
def importData (parsed : Option Json) : ImportResult :=
  match parsed with
  | none => .failed "parse error"
  | some d =>
    if jsTruthy d then
      match jsField d "sessions" with
      | some (.arr xs) => .replaced xs
      | _ => .failed "expected a sessions array"
    else .failed "expected a sessions array"

/-- Effect of the import outcome on the store: an alert leaves it unchanged,
the success path replaces it wholesale. -/
def applyImport (store : List Json) (r : ImportResult) : List Json :=
  match r with
  | .failed _ => store
  | .replaced xs => xs

/-- exportData (part_000 lines 403-411) serializes the object with the
single sessions field.  Modelled at the JSON tree level: JSON.stringify and
JSON.parse are mutually inverse on JSON trees, so the text is elided. -/
def exportData (store : List Json) : Json := .obj [("sessions", .arr store)]

/-- JSON image of a stored value.  Undefined has no JSON representation
(stringify drops such fields); round-trip statements therefore assume
undefined-free stores, which every app-written or JSON-loaded store is. -/
def encodeVal (v : Val) : Json :=
  match v with
  | .vempty => .str ""
  | .vnull => .null
  | .vundefined => .null
  | .vnum q => .num q

/-- JSON image of an entry. -/
def encodeEntry (e : Entry) : Json :=
  .obj [("weight", encodeVal e.weight), ("reps", encodeVal e.reps), ("sets", encodeVal e.sets)]

/-- JSON image of a session, field for field as saveSession lays it out. -/
def encodeSession (s : Session) : Json :=
  .obj [ ("id", .str s.id)
       , ("date", .str s.date)
       , ("dayKey", .str s.dayKey)
       , ("dayName", .str s.dayName)
       , ("cardio", .obj [("type", .str s.cardio.type), ("minutes", encodeVal s.cardio.minutes)])
       , ("notes", .str s.notes)
       , ("entries", .obj (s.entries.map (fun p => (p.1, encodeEntry p.2))))
       , ("createdAt", .num (s.createdAt : ℚ)) ]

/-- Reading a stored value back from JSON (nonempty strings do not occur as
stored numeric fields, so they decode like the sentinel). -/
def decodeVal (j : Json) : Val :=
  match j with
  | .null => .vnull
  | .num q => .vnum q
  | .str _ => .vempty
  | _ => .vundefined

/-- Reading a string field back from JSON. -/
def decodeStr (j : Option Json) : String :=
  match j with
  | some (.str s) => s
  | _ => ""

/-- Reading a value field back from JSON, a missing field being undefined. -/
def decodeValField (j : Option Json) : Val :=
  match j with
  | some v => decodeVal v
  | none => .vundefined

/-- Reading an entry back from JSON. -/
def decodeEntry (j : Json) : Entry :=
  { weight := decodeValField (jsField j "weight")
    reps := decodeValField (jsField j "reps")
    sets := decodeValField (jsField j "sets") }

/-- Reading the createdAt tick back from JSON. -/
def decodeNat (j : Option Json) : Nat :=
  match j with
  | some (.num q) => q.num.toNat
  | _ => 0

/-- Reading the entries map back from JSON. -/
def decodeEntries (j : Option Json) : List (String × Entry) :=
  match j with
  | some (.obj fields) => fields.map (fun p => (p.1, decodeEntry p.2))
  | _ => []

/-- Reading a session back from JSON. -/
def decodeSession (j : Json) : Session :=
  { id := decodeStr (jsField j "id")
    date := decodeStr (jsField j "date")
    dayKey := decodeStr (jsField j "dayKey")
    dayName := decodeStr (jsField j "dayName")
    cardio :=
      { type := decodeStr (jsField ((jsField j "cardio").getD .null) "type")
        minutes := decodeValField (jsField ((jsField j "cardio").getD .null) "minutes") }
    notes := decodeStr (jsField j "notes")
    entries := decodeEntries (jsField j "entries")
    createdAt := decodeNat (jsField j "createdAt") }

/-- A stored value is JSON-representable when it is not undefined. -/
def ValJsonSafe (v : Val) : Prop := v ≠ .vundefined

/-- An entry is JSON-representable when all three fields are. -/
def EntryJsonSafe (e : Entry) : Prop :=
  ValJsonSafe e.weight ∧ ValJsonSafe e.reps ∧ ValJsonSafe e.sets

/-- A session is JSON-representable when its numeric fields are.  Every
session written by saveSession and every session parsed from JSON is. -/
def SessionJsonSafe (s : Session) : Prop :=
  ValJsonSafe s.cardio.minutes ∧ ∀ p ∈ s.entries, EntryJsonSafe p.2

/-- A store has unique dates when no two of its sessions share one. -/
def UniqueDates (store : List Session) : Prop :=
  (store.map Session.date).Nodup

instance (store : List Session) : Decidable (UniqueDates store) :=
  inferInstanceAs (Decidable ((store.map Session.date).Nodup))

instance (v : Val) : Decidable (ValJsonSafe v) :=
  inferInstanceAs (Decidable (v ≠ .vundefined))

instance (e : Entry) : Decidable (EntryJsonSafe e) :=
  inferInstanceAs (Decidable (ValJsonSafe e.weight ∧ ValJsonSafe e.reps ∧ ValJsonSafe e.sets))

instance (s : Session) : Decidable (SessionJsonSafe s) :=
  inferInstanceAs (Decidable (ValJsonSafe s.cardio.minutes ∧ ∀ p ∈ s.entries, EntryJsonSafe p.2))

/-- Fixture: a minimal session recording one shoulder-press weight. -/
def fixtureSession (d k : String) (w : Val) (t : Nat) : Session :=
  { id := d ++ "-" ++ k
    date := d
    dayKey := k
    dayName := "Day 1 - Shoulders (Heavy) + Push + Abs"
    cardio := { type := "Incline walk", minutes := .vnum 15 }
    notes := ""
    entries := [("shoulder_press", { weight := w, reps := .vempty, sets := .vempty })]
    createdAt := t }

/-- Fixture: first save, January 1st, weight 30. -/
def sessJan1 : Session := fixtureSession "2024-01-01" "d1" (.vnum 30) 1

/-- Fixture: second save, January 2nd, weight 40. -/
def sessJan2 : Session := fixtureSession "2024-01-02" "d1" (.vnum 40) 2

/-- Fixture: third save, January 1st again, weight 50, replacing the first. -/
def sessJan1b : Session := fixtureSession "2024-01-01" "d1" (.vnum 50) 3

/-- Fixture: the store reached by saving the three fixtures in order. -/
def fixtureStore : List Session :=
  saveSessionUpsert (saveSessionUpsert (saveSessionUpsert [] sessJan1) sessJan2) sessJan1b

/-- The shoulder-press catalog entry of day 1. -/
def shoulderPress : Exercise :=
  { id := "shoulder_press", name := "Shoulder Press", unit := "kg", start := .vnum 35 }

/-- Fixture: a two-point series with weights 40 and 42. -/
def fixturePoints : List ChartPoint :=
  [ { date := "2024-01-01", weight := some 40, dayKey := "d1" }
  , { date := "2024-01-08", weight := some 42, dayKey := "d1" } ]

/-- Fixture form state with junk numeric text and an entry left over from a
different day's exercise. -/
def fixtureForm : FormState :=
  { date := "2024-02-01"
    dayKey := "d1"
    notes := "pushed hard"
    cardioMinutes := .rstr "abc"
    entries :=
      [ ("shoulder_press", { weight := .rstr "37.5x", reps := .rstr "8", sets := .rstr "" })
      , ("lat_pulldown", { weight := .rstr "50", reps := .rstr "", sets := .rstr "" }) ] }

/-- Characterization of a missed findIndex: no element satisfies the test. -/
theorem jsFindIndex_eq_none_iff {α : Type} (p : α → Bool) (l : List α) :
    jsFindIndex p l = none ↔ ∀ a ∈ l, p a = false := by
  induction l with
  | nil => simp [jsFindIndex]
  | cons x xs ih =>
    cases hx : p x with
    | true => simp [jsFindIndex, hx]
    | false => simp [jsFindIndex, hx, ih]

/-- Characterization of a hit findIndex: the test holds at the index and
fails strictly before it. -/
theorem jsFindIndex_eq_some_iff {α : Type} (p : α → Bool) (l : List α) (i : Nat) :
    jsFindIndex p l = some i ↔
      (∃ a, l[i]? = some a ∧ p a = true) ∧
        ∀ j, j < i → ∀ b, l[j]? = some b → p b = false := by
  induction l generalizing i with
  | nil => simp [jsFindIndex]
  | cons x xs ih =>
    cases hx : p x with
    | true =>
      simp only [jsFindIndex, hx, if_pos rfl]
      constructor
      · intro h
        obtain rfl : (0 : Nat) = i := by injection h
        exact ⟨⟨x, by simp, hx⟩, fun j hj b hb => absurd hj (Nat.not_lt_zero j)⟩
      · rintro ⟨⟨a, ha, hpa⟩, hmin⟩
        cases i with
        | zero => rfl
        | succ n =>
          have hfalse := hmin 0 (Nat.succ_pos n) x (by simp)
          rw [hx] at hfalse
          exact absurd hfalse (by simp)
    | false =>
      simp only [jsFindIndex, hx, if_neg Bool.false_ne_true]
      constructor
      · intro h
        rw [Option.map_eq_some'] at h
        obtain ⟨j, hj, rfl⟩ := h
        obtain ⟨⟨a, ha, hpa⟩, hmin⟩ := (ih j).mp hj
        refine ⟨⟨a, by simpa using ha, hpa⟩, ?_⟩
        intro j2 hj2 b hb
        cases j2 with
        | zero =>
          obtain rfl : x = b := by simpa using hb
          exact hx
        | succ k =>
          exact hmin k (by omega) b (by simpa using hb)
      · rintro ⟨⟨a, ha, hpa⟩, hmin⟩
        cases i with
        | zero =>
          obtain rfl : x = a := by simpa using ha
          rw [hx] at hpa
          exact absurd hpa (by simp)
        | succ n =>
          have hxs : jsFindIndex p xs = some n := by
            refine (ih n).mpr ⟨⟨a, by simpa using ha, hpa⟩, ?_⟩
            intro j hj b hb
            exact hmin (j + 1) (by omega) b (by simpa using hb)
          rw [hxs]
          rfl

/-- Replacing the found element by another element that still passes a
weaker test leaves the weaker findIndex at the same position. -/
theorem jsFindIndex_set {α : Type} (p q : α → Bool) (l : List α) (i : Nat) (a : α)
    (hq : jsFindIndex q l = some i) (himp : ∀ x, p x = true → q x = true)
    (hpa : p a = true) : jsFindIndex p (l.set i a) = some i := by
  induction l generalizing i with
  | nil => simp [jsFindIndex] at hq
  | cons x xs ih =>
    cases hqx : q x with
    | true =>
      rw [jsFindIndex, hqx, if_pos rfl] at hq
      obtain rfl : (0 : Nat) = i := by injection hq
      simp [List.set, jsFindIndex, hpa]
    | false =>
      rw [jsFindIndex, hqx, if_neg Bool.false_ne_true, Option.map_eq_some'] at hq
      obtain ⟨j, hj, rfl⟩ := hq
      have hpx : p x = false := by
        cases hpx2 : p x with
        | false => rfl
        | true => rw [himp x hpx2] at hqx; exact absurd hqx (by simp)
      simp only [List.set, jsFindIndex, hpx, if_neg Bool.false_ne_true, ih j hj]
      rfl

/-- Appending a passing element to an all-failing list puts the findIndex at
the old length. -/
theorem jsFindIndex_append {α : Type} (p : α → Bool) (l : List α) (a : α)
    (hl : jsFindIndex p l = none) (hpa : p a = true) :
    jsFindIndex p (l ++ [a]) = some l.length := by
  induction l with
  | nil => simp [jsFindIndex, hpa]
  | cons x xs ih =>
    rw [jsFindIndex] at hl
    cases hx : p x with
    | true => rw [hx, if_pos rfl] at hl; exact absurd hl (by simp)
    | false =>
      rw [hx, if_neg Bool.false_ne_true, Option.map_eq_none'] at hl
      rw [List.cons_append, jsFindIndex, hx, if_neg Bool.false_ne_true, ih hl]
      rfl

/-- Writing at the position just past the original list rewrites only the
appended element. -/
theorem set_append_length {α : Type} (l : List α) (a b : α) :
    (l ++ [a]).set l.length b = l ++ [b] := by
  induction l with
  | nil => rfl
  | cons x xs ih => simp [List.set, ih]

/-- Replacing an element by one with the same image leaves the mapped list
unchanged. -/
theorem map_set_same {α β : Type} (f : α → β) (l : List α) (i : Nat) (a b : α)
    (ha : l[i]? = some a) (hfab : f a = f b) :
    (l.set i b).map f = l.map f := by
  induction l generalizing i with
  | nil => simp at ha
  | cons x xs ih =>
    cases i with
    | zero =>
      obtain rfl : x = a := by simpa using ha
      simp [List.set, ← hfab]
    | succ n =>
      simp only [List.set, List.map_cons]
      rw [ih n (by simpa using ha)]

/-- Bridge between the Boolean test of the primary findIndex and its
propositional reading. -/
theorem match2_eq_true_iff (t s : Session) :
    (t.date == s.date && t.dayKey == s.dayKey) = true ↔
      (t.date = s.date ∧ t.dayKey = s.dayKey) := by
  simp

/-- Bridge between the Boolean test of the fallback findIndex and its
propositional reading. -/
theorem matchd_eq_true_iff (t s : Session) :
    (t.date == s.date) = true ↔ t.date = s.date := by
  simp

/-- C1: the upsert performed by saveSession replaces in place the first
existing session matching both the payload's date and day key; failing
that, the first session matching the date alone; failing that, it appends
the payload at the end.  Every other position is unchanged. -/
theorem saveSession_upsert_contract (prev : List Session) (s : Session) :
    (∀ i a, prev[i]? = some a → a.date = s.date → a.dayKey = s.dayKey →
        (∀ j b, j < i → prev[j]? = some b → ¬(b.date = s.date ∧ b.dayKey = s.dayKey)) →
        saveSessionUpsert prev s = prev.set i s ∧
          (saveSessionUpsert prev s)[i]? = some s ∧
          ∀ j, j ≠ i → (saveSessionUpsert prev s)[j]? = prev[j]?)
    ∧
    ((∀ a ∈ prev, ¬(a.date = s.date ∧ a.dayKey = s.dayKey)) →
      ∀ i a, prev[i]? = some a → a.date = s.date →
        (∀ j b, j < i → prev[j]? = some b → b.date ≠ s.date) →
        saveSessionUpsert prev s = prev.set i s ∧
          (saveSessionUpsert prev s)[i]? = some s ∧
          ∀ j, j ≠ i → (saveSessionUpsert prev s)[j]? = prev[j]?)
    ∧
    ((∀ a ∈ prev, a.date ≠ s.date) → saveSessionUpsert prev s = prev ++ [s]) := by
  refine ⟨?_, ?_, ?_⟩
  · intro i a ha hadate haday hmin
    have hilen : i < prev.length := by
      rcases List.getElem?_eq_some.mp ha with ⟨hlt, _⟩
      exact hlt
    have hfind : jsFindIndex (fun t => t.date == s.date && t.dayKey == s.dayKey) prev = some i := by
      refine (jsFindIndex_eq_some_iff _ _ _).mpr ⟨⟨a, ha, ?_⟩, ?_⟩
      · exact (match2_eq_true_iff a s).mpr ⟨hadate, haday⟩
      · intro j hj b hb
        cases hpb : (b.date == s.date && b.dayKey == s.dayKey) with
        | false => rfl
        | true => exact absurd ((match2_eq_true_iff b s).mp hpb) (hmin j b hj hb)
    have hres : saveSessionUpsert prev s = prev.set i s := by
      unfold saveSessionUpsert
      rw [hfind]
    refine ⟨hres, ?_, ?_⟩
    · rw [hres]
      exact List.getElem?_set_self hilen
    · intro j hj
      rw [hres, List.getElem?_set_ne (fun h => hj h.symm)]
  · intro hnone i a ha hadate hmin
    have hilen : i < prev.length := by
      rcases List.getElem?_eq_some.mp ha with ⟨hlt, _⟩
      exact hlt
    have hfind2 : jsFindIndex (fun t => t.date == s.date && t.dayKey == s.dayKey) prev = none := by
      refine (jsFindIndex_eq_none_iff _ _).mpr ?_
      intro b hb
      cases hpb : (b.date == s.date && b.dayKey == s.dayKey) with
      | false => rfl
      | true => exact absurd ((match2_eq_true_iff b s).mp hpb) (hnone b hb)
    have hfindd : jsFindIndex (fun t => t.date == s.date) prev = some i := by
      refine (jsFindIndex_eq_some_iff _ _ _).mpr ⟨⟨a, ha, ?_⟩, ?_⟩
      · exact (matchd_eq_true_iff a s).mpr hadate
      · intro j hj b hb
        cases hpb : (b.date == s.date) with
        | false => rfl
        | true => exact absurd ((matchd_eq_true_iff b s).mp hpb) (hmin j b hj hb)
    have hres : saveSessionUpsert prev s = prev.set i s := by
      unfold saveSessionUpsert
      rw [hfind2, hfindd]
    refine ⟨hres, ?_, ?_⟩
    · rw [hres]
      exact List.getElem?_set_self hilen
    · intro j hj
      rw [hres, List.getElem?_set_ne (fun h => hj h.symm)]
  · intro hnone
    have hfind2 : jsFindIndex (fun t => t.date == s.date && t.dayKey == s.dayKey) prev = none := by
      refine (jsFindIndex_eq_none_iff _ _).mpr ?_
      intro b hb
      cases hpb : (b.date == s.date && b.dayKey == s.dayKey) with
      | false => rfl
      | true => exact absurd ((match2_eq_true_iff b s).mp hpb).1 (hnone b hb)
    have hfindd : jsFindIndex (fun t => t.date == s.date) prev = none := by
      refine (jsFindIndex_eq_none_iff _ _).mpr ?_
      intro b hb
      cases hpb : (b.date == s.date) with
      | false => rfl
      | true => exact absurd ((matchd_eq_true_iff b s).mp hpb) (hnone b hb)
    unfold saveSessionUpsert
    rw [hfind2, hfindd]

/-- Witness for C1: saving a second session for the same date and day key
replaces the first one in place. -/
theorem saveSession_upsert_contract_witness :
    saveSessionUpsert [sessJan1] sessJan1b = [sessJan1b] := by
  have h := (saveSession_upsert_contract [sessJan1] sessJan1b).1 0 sessJan1
    (by rfl) (by rfl) (by rfl)
    (fun j b hj _ => absurd hj (Nat.not_lt_zero j))
  exact h.1

/-- C8: the upsert is idempotent: applying the same payload a second time
leaves the store exactly as after the first application. -/
theorem saveSession_upsert_idempotent (prev : List Session) (s : Session) :
    saveSessionUpsert (saveSessionUpsert prev s) s = saveSessionUpsert prev s := by
  have hps : (s.date == s.date && s.dayKey == s.dayKey) = true := by simp
  cases h2 : jsFindIndex (fun t => t.date == s.date && t.dayKey == s.dayKey) prev with
  | some i =>
    have hfirst : saveSessionUpsert prev s = prev.set i s := by
      unfold saveSessionUpsert
      rw [h2]
    have hset : jsFindIndex (fun t => t.date == s.date && t.dayKey == s.dayKey)
        (prev.set i s) = some i :=
      jsFindIndex_set _ _ prev i s h2 (fun x hx => hx) hps
    rw [hfirst]
    unfold saveSessionUpsert
    rw [hset]
    show (prev.set i s).set i s = prev.set i s
    rw [List.set_set]
  | none =>
    cases h3 : jsFindIndex (fun t => t.date == s.date) prev with
    | some i =>
      have hfirst : saveSessionUpsert prev s = prev.set i s := by
        unfold saveSessionUpsert
        rw [h2, h3]
      have hset : jsFindIndex (fun t => t.date == s.date && t.dayKey == s.dayKey)
          (prev.set i s) = some i :=
        jsFindIndex_set _ _ prev i s h3
          (fun x hx => (matchd_eq_true_iff x s).mpr ((match2_eq_true_iff x s).mp hx).1) hps
      rw [hfirst]
      unfold saveSessionUpsert
      rw [hset]
      show (prev.set i s).set i s = prev.set i s
      rw [List.set_set]
    | none =>
      have hfirst : saveSessionUpsert prev s = prev ++ [s] := by
        unfold saveSessionUpsert
        rw [h2, h3]
      have happ : jsFindIndex (fun t => t.date == s.date && t.dayKey == s.dayKey)
          (prev ++ [s]) = some prev.length :=
        jsFindIndex_append _ prev s h2 hps
      rw [hfirst]
      unfold saveSessionUpsert
      rw [happ]
      show (prev ++ [s]).set prev.length s = prev ++ [s]
      rw [set_append_length]

/-- Single upsert preserves date uniqueness. -/
theorem uniqueDates_upsert (store : List Session) (s : Session)
    (h : UniqueDates store) : UniqueDates (saveSessionUpsert store s) := by
  unfold saveSessionUpsert
  cases h2 : jsFindIndex (fun t => t.date == s.date && t.dayKey == s.dayKey) store with
  | some i =>
    obtain ⟨⟨a, ha, hpa⟩, _⟩ := (jsFindIndex_eq_some_iff _ _ _).mp h2
    have hdate : a.date = s.date := ((match2_eq_true_iff a s).mp hpa).1
    unfold UniqueDates at h ⊢
    rw [map_set_same Session.date store i a s ha hdate]
    exact h
  | none =>
    cases h3 : jsFindIndex (fun t => t.date == s.date) store with
    | some i =>
      obtain ⟨⟨a, ha, hpa⟩, _⟩ := (jsFindIndex_eq_some_iff _ _ _).mp h3
      have hdate : a.date = s.date := (matchd_eq_true_iff a s).mp hpa
      unfold UniqueDates at h ⊢
      rw [map_set_same Session.date store i a s ha hdate]
      exact h
    | none =>
      have hall : ∀ a ∈ store, a.date ≠ s.date := by
        intro a ha
        have := (jsFindIndex_eq_none_iff _ _).mp h3 a ha
        simpa using this
      unfold UniqueDates at h ⊢
      rw [List.map_append]
      rw [List.nodup_append]
      refine ⟨h, by simp, ?_⟩
      intro d hd
      simp only [List.mem_map] at hd
      obtain ⟨a, ha, rfl⟩ := hd
      simpa using hall a ha

/-- C2: starting from a store with pairwise distinct dates, any sequence of
upserts leaves at most one session per date. -/
theorem upserts_preserve_unique_dates (newSessions : List Session)
    (store : List Session) (h : UniqueDates store) :
    UniqueDates (newSessions.foldl saveSessionUpsert store) := by
  induction newSessions generalizing store with
  | nil => exact h
  | cons s rest ih => exact ih _ (uniqueDates_upsert store s h)

/-- Witness for C2 at a concrete store and save sequence. -/
theorem upserts_preserve_unique_dates_witness :
    UniqueDates ([sessJan2, sessJan1b].foldl saveSessionUpsert [sessJan1]) :=
  upserts_preserve_unique_dates [sessJan2, sessJan1b] [sessJan1] (by decide)

/-- C3 (amended): the day-change seeding scans the store in reverse storage
order (last array element first) for a session whose entry for the exercise
has a weight other than the empty string; the first such session found
supplies the seeded weight (nullish collapsed to empty); otherwise the
exercise's static start value is used (nullish collapsed to empty);
seeded reps and sets are always empty; and on the empty store, day d1 seeds
weight 35 and empty sets and reps for the shoulder press. -/
theorem seeding_contract (sessions : List Session) (ex : Exercise) (day : WorkoutDay) :
    ((∀ t ∈ sessions, entryNonEmptyWeight t ex.id = false) →
        seedDefaultWeight sessions ex = jsCoalesce ex.start)
    ∧
    (∀ pre s0 post, sessions = pre ++ s0 :: post →
        entryNonEmptyWeight s0 ex.id = true →
        (∀ t ∈ post, entryNonEmptyWeight t ex.id = false) →
        seedDefaultWeight sessions ex = jsCoalesce (weightOf s0 ex.id))
    ∧
    (∀ p ∈ seedEntries sessions day,
        p.2.reps = Val.vempty ∧ p.2.sets = Val.vempty ∧
          ∃ e ∈ day.exercises, p.1 = e.id ∧ p.2.weight = seedDefaultWeight sessions e)
    ∧
    jsGet (seedEntries ([] : List Session) day1) ("shoulder_press")
      = some { weight := Val.vnum 35, reps := Val.vempty, sets := Val.vempty } := by
  refine ⟨?_, ?_, ?_, by decide⟩
  · intro hall
    have hnone : sessions.reverse.find? (fun s => entryNonEmptyWeight s ex.id) = none := by
      rw [List.find?_eq_none]
      intro t ht
      have := hall t (List.mem_reverse.mp ht)
      simp [this]
    unfold seedDefaultWeight
    rw [hnone]
  · intro pre s0 post hsplit hs0 hpost
    have hrev : sessions.reverse = post.reverse ++ s0 :: pre.reverse := by
      rw [hsplit]
      simp
    have hnone : post.reverse.find? (fun s => entryNonEmptyWeight s ex.id) = none := by
      rw [List.find?_eq_none]
      intro t ht
      have := hpost t (List.mem_reverse.mp ht)
      simp [this]
    have hfound : sessions.reverse.find? (fun s => entryNonEmptyWeight s ex.id) = some s0 := by
      rw [hrev, List.find?_append, hnone, Option.none_or]
      exact List.find?_cons_of_pos _ hs0
    unfold seedDefaultWeight
    rw [hfound]
  · intro p hp
    unfold seedEntries at hp
    rw [List.mem_map] at hp
    obtain ⟨e, he, rfl⟩ := hp
    exact ⟨rfl, rfl, e, he, rfl, rfl⟩

/-- Witness for the amended C3: on the fixture store the scan stops at the
last stored session with a weight (January 2nd, weight 40), and on the
empty store the shoulder press seeds its static start 35. -/
theorem seeding_contract_witness :
    seedDefaultWeight fixtureStore shoulderPress = Val.vnum 40
      ∧ seedDefaultWeight ([] : List Session) shoulderPress = Val.vnum 35 := by
  constructor
  · exact ((seeding_contract fixtureStore shoulderPress day1).2.1 [sessJan1b] sessJan2 []
      (by decide) (by decide) (by decide)).trans (by decide)
  · exact ((seeding_contract ([] : List Session) shoulderPress day1).1 (by decide)).trans
      (by decide)

/-- C3 counterexample: the claim's scan order is most-recently-saved first,
but the source scans in reverse storage order.  In the store obtained by
saving January 1st, then January 2nd, then January 1st again (weight 50,
replacing the first save in place), the most-recently-saved session holds
shoulder-press weight 50, yet the code seeds 40, the weight of the session
stored at the end of the array. -/
theorem seeding_recency_counterexample :
    fixtureStore
        = saveSessionUpsert (saveSessionUpsert (saveSessionUpsert [] sessJan1) sessJan2) sessJan1b
      ∧ shoulderPress ∈ day1.exercises
      ∧ sessJan1b ∈ fixtureStore
      ∧ (∀ t ∈ fixtureStore, t.createdAt ≤ sessJan1b.createdAt)
      ∧ entryNonEmptyWeight sessJan1b ("shoulder_press") = true
      ∧ weightOf sessJan1b ("shoulder_press") = Val.vnum 50
      ∧ seedDefaultWeightSpec fixtureStore shoulderPress = Val.vnum 50
      ∧ seedDefaultWeight fixtureStore shoulderPress = Val.vnum 40
      ∧ seedDefaultWeight fixtureStore shoulderPress
          ≠ seedDefaultWeightSpec fixtureStore shoulderPress :=
  ⟨rfl, by decide, by decide, by decide, by decide, by decide, by decide, by decide, by decide⟩

/-- C4: the analytics series holds exactly one point per session recording
the exercise (it is a permutation of the filtered projection), is sorted
non-decreasing by date string, each point carries the session's date and
day key with a null weight exactly on the empty sentinel and the stored
number otherwise, and an exercise recorded by no session yields an empty
series. -/
theorem chartData_contract (sessions : List Session) (exId : String) :
    (chartData sessions exId).Perm
        ((sessions.filter (fun s => (jsGet s.entries exId).isSome)).map (chartPointOf exId))
    ∧ List.Sorted dateLe (chartData sessions exId)
    ∧ (∀ p ∈ chartData sessions exId, ∃ s ∈ sessions, ∃ e,
        jsGet s.entries exId = some e ∧ p.date = s.date ∧ p.dayKey = s.dayKey ∧
          (p.weight = none ↔
            (e.weight = Val.vempty ∨ e.weight = Val.vnull ∨ e.weight = Val.vundefined)) ∧
          ∀ q, p.weight = some q ↔ e.weight = Val.vnum q)
    ∧ ((∀ s ∈ sessions, jsGet s.entries exId = none) → chartData sessions exId = []) := by
  refine ⟨List.perm_insertionSort dateLe _, List.sorted_insertionSort dateLe _, ?_, ?_⟩
  · intro p hp
    unfold chartData at hp
    rw [(List.perm_insertionSort dateLe _).mem_iff, List.mem_map] at hp
    obtain ⟨s, hsfil, rfl⟩ := hp
    obtain ⟨hs, hsome⟩ := List.mem_filter.mp hsfil
    obtain ⟨e, he⟩ := Option.isSome_iff_exists.mp hsome
    obtain ⟨ew, er, es⟩ := e
    refine ⟨s, hs, ⟨ew, er, es⟩, he, rfl, rfl, ?_, ?_⟩
    · show toChartWeight (weightOf s exId) = none ↔ _
      unfold weightOf
      rw [he]
      cases ew <;> simp [toChartWeight]
    · intro q
      show toChartWeight (weightOf s exId) = some q ↔ _
      unfold weightOf
      rw [he]
      cases ew <;> simp [toChartWeight]
  · intro hall
    have hfil : sessions.filter (fun s => (jsGet s.entries exId).isSome) = [] := by
      rw [List.filter_eq_nil_iff]
      intro s hs
      rw [hall s hs]
      simp
    unfold chartData
    rw [hfil]
    rfl

/-- Witness for C4: a singleton store yields its one projected point, and an
exercise recorded nowhere yields the empty series. -/
theorem chartData_contract_witness :
    chartData [sessJan1] ("lat_pulldown") = []
      ∧ List.Sorted dateLe (chartData [sessJan1] ("shoulder_press")) :=
  ⟨(chartData_contract [sessJan1] ("lat_pulldown")).2.2.2 (by decide),
   (chartData_contract [sessJan1] ("shoulder_press")).2.1⟩

/-- All numeric weights of a series, read off through the filter that
lastTwo applies. -/
theorem filterMap_weight_eq (pts : List ChartPoint) :
    pts.filterMap (fun p => p.weight)
      = (pts.filter (fun p => p.weight.isSome)).map (fun p => p.weight.getD 0) := by
  induction pts with
  | nil => rfl
  | cons p ps ih =>
    cases hw : p.weight with
    | none => simp [List.filterMap_cons, List.filter_cons, hw, ih]
    | some q => simp [List.filterMap_cons, List.filter_cons, hw, ih]

/-- A left fold of max starts at the seed or lands in the list. -/
theorem foldl_max_eq_or_mem (ws : List ℚ) (w : ℚ) :
    ws.foldl max w = w ∨ ws.foldl max w ∈ ws := by
  induction ws generalizing w with
  | nil => exact Or.inl rfl
  | cons y ys ih =>
    rcases ih (max w y) with h | h
    · rcases max_cases w y with ⟨he, _⟩ | ⟨he, _⟩
      · exact Or.inl (by rw [List.foldl_cons, h, he])
      · exact Or.inr (by rw [List.foldl_cons, h, he]; exact List.mem_cons_self y ys)
    · exact Or.inr (List.mem_cons_of_mem y (by rw [List.foldl_cons]; exact h))

/-- A left fold of max bounds its seed and every list element. -/
theorem le_foldl_max (ws : List ℚ) (w : ℚ) :
    w ≤ ws.foldl max w ∧ ∀ x ∈ ws, x ≤ ws.foldl max w := by
  induction ws generalizing w with
  | nil => exact ⟨le_refl w, by simp⟩
  | cons y ys ih =>
    obtain ⟨h1, h2⟩ := ih (max w y)
    rw [List.foldl_cons]
    refine ⟨le_trans (le_max_left w y) h1, ?_⟩
    intro x hx
    rcases List.mem_cons.mp hx with rfl | hx
    · exact le_trans (le_max_right w x) h1
    · exact h2 x hx

/-- The JS index length minus one reads the last element. -/
theorem jsIndex_last {α : Type} (l : List α) :
    jsIndex l ((l.length : Int) - 1) = l.getLast? := by
  cases l with
  | nil => rfl
  | cons x xs =>
    rw [jsIndex, if_neg (by simp [List.length_cons]), List.getLast?_eq_getElem?]
    have hidx : (((x :: xs).length : Int) - 1).toNat = (x :: xs).length - 1 := by
      simp [List.length_cons]
    rw [hidx]

/-- The JS index length minus two reads the last element of dropLast. -/
theorem jsIndex_secondLast {α : Type} (l : List α) :
    jsIndex l ((l.length : Int) - 2) = l.dropLast.getLast? := by
  rw [List.getLast?_eq_getElem?, List.getElem?_dropLast, List.length_dropLast]
  rcases Nat.lt_or_ge l.length 2 with h | h
  · rw [jsIndex, if_pos (by omega), if_neg (by omega)]
  · rw [jsIndex, if_neg (by omega), if_pos (by omega)]
    have hidx : (((l.length : Int)) - 2).toNat = l.length - 1 - 1 := by omega
    rw [hidx]

/-- C5: in the summary, last is the final point with a numeric weight,
previous is the numeric point immediately before it, delta is the rounded
difference of their weights exactly when both exist and is absent when
fewer than two numeric points exist, and best is the maximum numeric
weight, absent exactly when there is none. -/
theorem lastTwo_contract (pts : List ChartPoint) :
    (lastTwo pts).last = (pts.filter (fun p => p.weight.isSome)).getLast?
    ∧ (lastTwo pts).prev = (pts.filter (fun p => p.weight.isSome)).dropLast.getLast?
    ∧ ((pts.filter (fun p => p.weight.isSome)).length < 2 → (lastTwo pts).delta = none)
    ∧ (∀ a b, (pts.filter (fun p => p.weight.isSome)).getLast? = some a →
        (pts.filter (fun p => p.weight.isSome)).dropLast.getLast? = some b →
        ∃ wa wb, a.weight = some wa ∧ b.weight = some wb ∧
          (lastTwo pts).delta = some (round2 (wa - wb)))
    ∧ ((lastTwo pts).best = none ↔ pts.filterMap (fun p => p.weight) = [])
    ∧ (∀ q, (lastTwo pts).best = some q →
        q ∈ pts.filterMap (fun p => p.weight)
          ∧ ∀ w ∈ pts.filterMap (fun p => p.weight), w ≤ q) := by
  refine ⟨?_, ?_, ?_, ?_, ?_, ?_⟩
  · simp only [lastTwo]
    exact jsIndex_last _
  · simp only [lastTwo]
    exact jsIndex_secondLast _
  · intro hlen
    have hprev : jsIndex (pts.filter (fun p => p.weight.isSome))
        (((pts.filter (fun p => p.weight.isSome)).length : Int) - 2) = none := by
      rw [jsIndex, if_pos (by omega)]
    simp only [lastTwo]
    rw [hprev]
    cases jsIndex (pts.filter (fun p => p.weight.isSome))
        (((pts.filter (fun p => p.weight.isSome)).length : Int) - 1) <;> rfl
  · intro a b ha hb
    have hamem : a ∈ pts.filter (fun p => p.weight.isSome) := by
      rw [List.getLast?_eq_getElem?] at ha
      exact List.getElem?_mem ha
    have hbmem : b ∈ pts.filter (fun p => p.weight.isSome) := by
      rw [List.getLast?_eq_getElem?] at hb
      exact (List.dropLast_sublist _).mem (List.getElem?_mem hb)
    obtain ⟨wa, hwa⟩ := Option.isSome_iff_exists.mp (List.mem_filter.mp hamem).2
    obtain ⟨wb, hwb⟩ := Option.isSome_iff_exists.mp (List.mem_filter.mp hbmem).2
    refine ⟨wa, wb, hwa, hwb, ?_⟩
    simp only [lastTwo]
    rw [jsIndex_last, jsIndex_secondLast, ha, hb]
    show some (round2 (a.weight.getD 0 - b.weight.getD 0)) = some (round2 (wa - wb))
    rw [hwa, hwb]
    rfl
  · simp only [lastTwo]
    rw [filterMap_weight_eq]
    cases hm : (pts.filter (fun p => p.weight.isSome)).map (fun p => p.weight.getD 0) with
    | nil => simp
    | cons w ws => simp
  · intro q hq
    simp only [lastTwo] at hq
    rw [filterMap_weight_eq]
    rcases hm : (pts.filter (fun p => p.weight.isSome)).map (fun p => p.weight.getD 0) with
      _ | ⟨w, ws⟩
    · rw [hm] at hq
      exact absurd hq (by simp)
    · rw [hm] at hq
      have hfold : ws.foldl max w = q := by
        injection hq
      constructor
      · rw [hm]
        rcases foldl_max_eq_or_mem ws w with h | h
        · rw [← hfold, h]
          exact List.mem_cons_self w ws
        · rw [← hfold]
          exact List.mem_cons_of_mem w h
      · intro x hx
        rw [hm] at hx
        obtain ⟨h1, h2⟩ := le_foldl_max ws w
        rcases List.mem_cons.mp hx with rfl | hx
        · rw [← hfold]
          exact h1
        · rw [← hfold]
          exact h2 x hx

/-- Witness for C5 at a concrete two-point series: delta is the rounded
difference of the last two numeric weights, and best bounds both. -/
theorem lastTwo_contract_witness :
    (lastTwo fixturePoints).delta = some (round2 (42 - 40))
      ∧ (lastTwo fixturePoints).best = some 42
      ∧ (42 : ℚ) ∈ fixturePoints.filterMap (fun p => p.weight)
      ∧ ∀ w ∈ fixturePoints.filterMap (fun p => p.weight), w ≤ 42 := by
  have h := lastTwo_contract fixturePoints
  have hbest : (lastTwo fixturePoints).best = some 42 := by decide
  obtain ⟨wa, wb, hwa, hwb, hd⟩ := h.2.2.2.1
    { date := "2024-01-08", weight := some 42, dayKey := "d1" }
    { date := "2024-01-01", weight := some 40, dayKey := "d1" }
    (by decide) (by decide)
  obtain rfl : wa = 42 := by
    have := hwa
    simp at this
    exact this.symm
  obtain rfl : wb = 40 := by
    have := hwb
    simp at this
    exact this.symm
  obtain ⟨hmem, hub⟩ := h.2.2.2.2.2 42 hbest
  exact ⟨hd, hbest, hmem, hub⟩

/-- C6: clampNumber is total on raw numeric input: every value maps to the
empty sentinel or to a number; empty inputs (empty string, null, undefined)
and unparseable (NaN) readings map to the sentinel, never to zero and never
to an error, while every parseable value keeps its numeric reading. -/
theorem clampNumber_contract (numParse : String → Option ℚ) (v : RawVal) :
    (clampNumber numParse v = Val.vempty ∨ ∃ q, clampNumber numParse v = Val.vnum q)
    ∧ ((v = RawVal.rstr "" ∨ v = RawVal.rnull ∨ v = RawVal.rundefined) →
        clampNumber numParse v = Val.vempty)
    ∧ (∀ s, v = RawVal.rstr s → s ≠ "" → numParse s = none →
        clampNumber numParse v = Val.vempty)
    ∧ (∀ s q, v = RawVal.rstr s → s ≠ "" → numParse s = some q →
        clampNumber numParse v = Val.vnum q)
    ∧ (∀ q, v = RawVal.rnum q → clampNumber numParse v = Val.vnum q) := by
  refine ⟨?_, ?_, ?_, ?_, ?_⟩
  · unfold clampNumber
    by_cases h : v = RawVal.rstr "" ∨ v = RawVal.rnull ∨ v = RawVal.rundefined
    · rw [if_pos h]
      exact Or.inl rfl
    · rw [if_neg h]
      cases jsNumber numParse v
      · exact Or.inl rfl
      · exact Or.inr ⟨_, rfl⟩
  · intro h
    unfold clampNumber
    rw [if_pos h]
  · rintro s rfl hne hn
    unfold clampNumber
    rw [if_neg (by simp [hne])]
    simp only [jsNumber]
    rw [hn]
  · rintro s q rfl hne hn
    unfold clampNumber
    rw [if_neg (by simp [hne])]
    simp only [jsNumber]
    rw [hn]
  · rintro q rfl
    unfold clampNumber
    rw [if_neg (by simp)]
    simp only [jsNumber]

/-- Witness for C6 with a concrete reading of Number on strings. -/
theorem clampNumber_contract_witness :
    clampNumber (fun s => if s = "42" then some 42 else none) (RawVal.rstr "abc") = Val.vempty
      ∧ clampNumber (fun s => if s = "42" then some 42 else none) (RawVal.rstr "42")
          = Val.vnum 42
      ∧ clampNumber (fun s => if s = "42" then some 42 else none) (RawVal.rstr "")
          = Val.vempty := by
  refine ⟨?_, ?_, ?_⟩
  · exact (clampNumber_contract _ _).2.2.1 "abc" rfl (by decide) (by decide)
  · exact (clampNumber_contract _ _).2.2.2.1 "42" 42 rfl (by decide) (by decide)
  · exact (clampNumber_contract _ _).2.1 (Or.inl rfl)

/-- C7: the import leaves the store untouched and reports a failure when the
text does not parse, when the parsed value is falsy, or when it has no
array-valued sessions field; on success the imported array replaces the
store wholesale. -/
theorem importData_contract (store : List Json) :
    (importData none = .failed ("parse error")
      ∧ applyImport store (importData none) = store)
    ∧ (∀ j, jsTruthy j = false →
        importData (some j) = .failed ("expected a sessions array")
          ∧ applyImport store (importData (some j)) = store)
    ∧ (∀ j, jsTruthy j = true → (∀ xs, jsField j ("sessions") ≠ some (.arr xs)) →
        importData (some j) = .failed ("expected a sessions array")
          ∧ applyImport store (importData (some j)) = store)
    ∧ (∀ j xs, jsTruthy j = true → jsField j ("sessions") = some (.arr xs) →
        importData (some j) = .replaced xs
          ∧ applyImport store (importData (some j)) = xs) := by
  have hsome : ∀ j : Json, importData (some j) =
      if jsTruthy j = true then
        match jsField j ("sessions") with
        | some (.arr xs) => ImportResult.replaced xs
        | _ => ImportResult.failed ("expected a sessions array")
      else ImportResult.failed ("expected a sessions array") := fun j => rfl
  refine ⟨⟨rfl, rfl⟩, ?_, ?_, ?_⟩
  · intro j hf
    have hres : importData (some j) = .failed ("expected a sessions array") := by
      rw [hsome j, if_neg (by rw [hf]; exact Bool.false_ne_true)]
    exact ⟨hres, by rw [hres]; rfl⟩
  · intro j ht hnone
    have hres : importData (some j) = .failed ("expected a sessions array") := by
      rw [hsome j, if_pos ht]
      rcases hfld : jsField j ("sessions") with _ | jv
      · rfl
      · rcases jv with _ | b | q | s | xs | fields
        · rfl
        · rfl
        · rfl
        · rfl
        · exact absurd hfld (hnone xs)
        · rfl
    exact ⟨hres, by rw [hres]; rfl⟩
  · intro j xs ht hfld
    have hres : importData (some j) = .replaced xs := by
      rw [hsome j, if_pos ht, hfld]
    exact ⟨hres, by rw [hres]; rfl⟩

/-- Witness for C7: a failed parse and a falsy parse leave the store alone,
a well-shaped object replaces it. -/
theorem importData_contract_witness :
    applyImport [Json.num 1] (importData none) = [Json.num 1]
      ∧ applyImport [Json.num 1]
          (importData (some (Json.obj [("sessions", Json.arr [Json.num 2])])))
          = [Json.num 2]
      ∧ applyImport [Json.num 1] (importData (some (Json.str "nope"))) = [Json.num 1] := by
  have h := importData_contract [Json.num 1]
  refine ⟨h.1.2, ?_, ?_⟩
  · exact (h.2.2.2 (Json.obj [("sessions", Json.arr [Json.num 2])]) [Json.num 2]
      (by decide) (by simp [jsField, jsGet])).2
  · exact (h.2.2.1 (Json.str "nope") (by decide)
      (fun xs hx => by simp [jsField] at hx)).2

/-- Reading back an encoded stored value, for JSON-representable values. -/
theorem decodeVal_encodeVal (v : Val) (h : ValJsonSafe v) : decodeVal (encodeVal v) = v := by
  cases v with
  | vempty => rfl
  | vnull => rfl
  | vundefined => exact absurd rfl h
  | vnum q => rfl

/-- Reading back an encoded entry, for JSON-representable entries. -/
theorem decodeEntry_encodeEntry (e : Entry) (h : EntryJsonSafe e) :
    decodeEntry (encodeEntry e) = e := by
  obtain ⟨ew, er, es⟩ := e
  obtain ⟨h1, h2, h3⟩ := h
  show Entry.mk (decodeVal (encodeVal ew)) (decodeVal (encodeVal er))
      (decodeVal (encodeVal es)) = Entry.mk ew er es
  rw [decodeVal_encodeVal _ h1, decodeVal_encodeVal _ h2, decodeVal_encodeVal _ h3]

/-- Reading back an encoded entries map, pointwise. -/
theorem decode_encode_entries (l : List (String × Entry))
    (h : ∀ p ∈ l, EntryJsonSafe p.2) :
    (l.map (fun p => (p.1, encodeEntry p.2))).map (fun p => (p.1, decodeEntry p.2)) = l := by
  induction l with
  | nil => rfl
  | cons p ps ih =>
    rw [List.map_cons, List.map_cons]
    have hp : (((p.1, encodeEntry p.2) : String × Json).1,
        decodeEntry ((p.1, encodeEntry p.2) : String × Json).2) = p := by
      show (p.1, decodeEntry (encodeEntry p.2)) = p
      rw [decodeEntry_encodeEntry p.2 (h p (List.mem_cons_self p ps))]
    rw [hp, ih (fun q hq => h q (List.mem_cons_of_mem p hq))]

/-- Reading back an encoded session, for JSON-representable sessions. -/
theorem decodeSession_encodeSession (s : Session) (h : SessionJsonSafe s) :
    decodeSession (encodeSession s) = s := by
  obtain ⟨sid, sdate, skey, sname, ⟨ctype, cmin⟩, snotes, sentries, screated⟩ := s
  obtain ⟨hmin, hent⟩ := h
  show Session.mk sid sdate skey sname
      (Cardio.mk ctype (decodeVal (encodeVal cmin))) snotes
      ((sentries.map (fun p => (p.1, encodeEntry p.2))).map
        (fun p => (p.1, decodeEntry p.2)))
      (((screated : ℚ)).num.toNat)
    = Session.mk sid sdate skey sname (Cardio.mk ctype cmin) snotes sentries screated
  rw [decodeVal_encodeVal _ hmin, decode_encode_entries sentries hent]
  have hnat : ((screated : ℚ)).num.toNat = screated := by
    rw [Rat.num_natCast]
    exact Int.toNat_natCast screated
  rw [hnat]

/-- C9: exporting a store and importing that exact output succeeds, replaces
the store with precisely the exported sessions, and those decode back to
the original store.  The hypothesis excludes undefined field values, which
no app-produced or JSON-loaded store contains, since JSON cannot represent
undefined. -/
theorem export_import_roundtrip (ss : List Session) (store : List Json)
    (h : ∀ s ∈ ss, SessionJsonSafe s) :
    importData (some (exportData (ss.map encodeSession)))
        = .replaced (ss.map encodeSession)
      ∧ applyImport store (importData (some (exportData (ss.map encodeSession))))
          = ss.map encodeSession
      ∧ (ss.map encodeSession).map decodeSession = ss := by
  have h1 : importData (some (exportData (ss.map encodeSession)))
      = ImportResult.replaced (ss.map encodeSession) := rfl
  refine ⟨h1, by rw [h1]; rfl, ?_⟩
  rw [List.map_map]
  have hmap : ∀ (l : List Session), (∀ s ∈ l, SessionJsonSafe s) →
      l.map (decodeSession ∘ encodeSession) = l := by
    intro l hl
    induction l with
    | nil => rfl
    | cons s rest ih =>
      rw [List.map_cons]
      have hs : (decodeSession ∘ encodeSession) s = s :=
        decodeSession_encodeSession s (hl s (List.mem_cons_self s rest))
      rw [hs, ih (fun t ht => hl t (List.mem_cons_of_mem s ht))]
  exact hmap ss h

/-- Witness for C9 at a concrete one-session store. -/
theorem export_import_roundtrip_witness :
    importData (some (exportData ([sessJan1].map encodeSession)))
        = ImportResult.replaced ([sessJan1].map encodeSession)
      ∧ ([sessJan1].map encodeSession).map decodeSession = [sessJan1] := by
  have h := export_import_roundtrip [sessJan1] [] (by decide)
  exact ⟨h.1, h.2.2⟩

/-- Every cleaned field is the empty sentinel or a number. -/
theorem cleanField_cases (numParse : String → Option ℚ) (v : RawVal) :
    cleanField numParse v = Val.vempty ∨ ∃ q, cleanField numParse v = Val.vnum q := by
  unfold cleanField clampNumber
  by_cases h : v = RawVal.rstr ""
  · rw [if_pos h]
    exact Or.inl rfl
  · rw [if_neg h]
    by_cases h2 : v = RawVal.rstr "" ∨ v = RawVal.rnull ∨ v = RawVal.rundefined
    · rw [if_pos h2]
      exact Or.inl rfl
    · rw [if_neg h2]
      cases jsNumber numParse v
      · exact Or.inl rfl
      · exact Or.inr ⟨_, rfl⟩

/-- C10: the saved payload's entries have exactly the selected day's
exercise ids as keys, in catalog order, and every stored weight, sets and
reps value is the empty sentinel or a number, never NaN and never an
error. -/
theorem buildSession_contract (numParse : String → Option ℚ) (fs : FormState)
    (day : WorkoutDay) (newId : String) (now : Nat)
    (hday : PROGRAM_days fs.dayKey = some day) :
    (buildSessionPayload numParse fs day newId now).entries.map Prod.fst
        = day.exercises.map Exercise.id
    ∧ ∀ p ∈ (buildSessionPayload numParse fs day newId now).entries,
        (p.2.weight = Val.vempty ∨ ∃ q, p.2.weight = Val.vnum q)
          ∧ (p.2.sets = Val.vempty ∨ ∃ q, p.2.sets = Val.vnum q)
          ∧ (p.2.reps = Val.vempty ∨ ∃ q, p.2.reps = Val.vnum q) := by
  constructor
  · show (day.exercises.map (fun ex =>
        (ex.id, cleanEntry numParse
          ((jsGet fs.entries ex.id).getD
            { weight := .rstr "", reps := .rstr "", sets := .rstr "" })))).map Prod.fst
      = day.exercises.map Exercise.id
    rw [List.map_map]
    rfl
  · intro p hp
    have hp2 : p ∈ day.exercises.map (fun ex =>
        (ex.id, cleanEntry numParse
          ((jsGet fs.entries ex.id).getD
            { weight := .rstr "", reps := .rstr "", sets := .rstr "" }))) := hp
    rw [List.mem_map] at hp2
    obtain ⟨ex, hex, rfl⟩ := hp2
    exact ⟨cleanField_cases _ _, cleanField_cases _ _, cleanField_cases _ _⟩

/-- Witness for C10: the payload keys are exactly day 1's exercise ids, and
the lat-pulldown value entered while day 3 was active is dropped. -/
theorem buildSession_contract_witness :
    (buildSessionPayload (fun _ => none) fixtureForm day1 ("id1") 7).entries.map Prod.fst
      = [ "shoulder_press", "lat_raise_machine", "incline_db_press"
        , "rear_delt_fly_cable", "triceps_pushdown", "ab_crunch_machine" ] := by
  have h := buildSession_contract (fun _ => none) fixtureForm day1 ("id1") 7 rfl
  rw [h.1]
  rfl
